import Mathlib

/-!
Shallow embedding of the Deno KV user-CRUD API (src/index.ts).

The request handlers (`registerUser`, `loginUser`, `getAllUsers`,
`updateUser`, `deleteUser`) and the validator (`validateUserData`) are
translated from the source.  The Deno KV store is modelled as an
association list keyed by email (one entry per key, insertion order);
`kv.get` / `kv.set` / `kv.delete` / `kv.list` become `kvGet` / `kvSet` /
`kvDelete` / the list itself.  The external bcrypt library (not part of
this repository's sources) is modelled from the spec's Credential Hasher
contract: `hash` produces a self-describing digest embedding the salt,
and `verify` recomputes from the digest and is total, returning `false`
on any mismatch or malformed digest.
-/

namespace DenoKvApi

/-- A JavaScript value as inspected by the handlers: either a string, or
any non-string value, of which the code only ever observes truthiness. -/
inductive JSVal where
  | jstr (s : String)
  | jother (truthy : Bool)
deriving DecidableEq

/-- A request body for register/update: each field is optional
(`none` = key absent from the JSON object). -/
structure Body where
  firstName : Option JSVal
  lastName : Option JSVal
  email : Option JSVal
  password : Option JSVal
  phone : Option JSVal
  address : Option JSVal
deriving DecidableEq

/-- The stored user record, as written by `registerUser`:
`{ firstName, lastName, email, password: hashedPwd, phone, address }`.
The `password` field holds the bcrypt digest. -/
structure UserRecord where
  firstName : String
  lastName : String
  email : String
  password : String
  phone : String
  address : String
deriving DecidableEq

/-- The Deno KV store restricted to the `["users", email]` keyspace:
an association list from email to record, one entry per key. -/
abbrev Store := List (String × UserRecord)

/-- A response body: success message, error message, validation error
with details, or the user list returned by GET /users (each user as a
JSON object, i.e. a list of key/value pairs). -/
inductive RespBody where
  | msg (m : String)
  | err (e : String)
  | validation (details : List String)
  | userList (l : List (List (String × String)))
deriving DecidableEq

/-- An HTTP response: status code and JSON body. -/
structure Response where
  status : Nat
  body : RespBody
deriving DecidableEq

/-- Truthiness of an optional JS value (`!x` in the source):
absent and the empty string are falsy; other values carry their flag. -/
def isFalsy : Option JSVal → Bool
  | none => true
  | some (.jstr s) => s == ""
  | some (.jother t) => !t

/-- The string content of a field value; validation guarantees the field
is a string wherever this is used, so the default is unreachable there. -/
def getStr : Option JSVal → String
  | some (.jstr s) => s
  | _ => ""

/-- Truthiness of `s.trim()` in the source: `true` iff `s` contains a
non-whitespace character. -/
def trimmedNonEmpty (s : String) : Bool :=
  s.data.any (fun c => !c.isWhitespace)

/-- The email regex of the source, `/^[^@\s]+@[^@\s]+\.[^@\s]+$/`:
a non-empty whitespace-free local part, one `@`, and a whitespace-free
domain containing a dot that is neither its first nor last character. -/
def emailRegexTest (s : String) : Bool :=
  let l := s.data
  let localPart := l.takeWhile (fun c => c ≠ '@')
  let rest := l.dropWhile (fun c => c ≠ '@')
  match rest with
  | [] => false
  | _ :: domain =>
    localPart ≠ [] && localPart.all (fun c => !c.isWhitespace) &&
    domain.all (fun c => c ≠ '@' && !c.isWhitespace) &&
    (domain.drop 1).dropLast.contains '.'

/-- The phone regex of the source, `/^[+0-9]+$/`. -/
def phoneRegexTest (s : String) : Bool :=
  s.data ≠ [] && s.data.all (fun c => c == '+' || c.isDigit)

/-- The check the source applies to firstName, lastName and address:
`!x || typeof x !== "string" || !x.trim()` pushes `msg`. -/
def errStrField (msg : String) : Option JSVal → List String
  | some (.jstr s) => if s == "" || !trimmedNonEmpty s then [msg] else []
  | _ => [msg]

/-- The email checks of the source: falsy/non-string pushes the first
message, otherwise a failed regex test pushes the second. -/
def errEmail : Option JSVal → List String
  | some (.jstr s) =>
    if s == "" then ["email bo‘sh yoki noto‘g‘ri tipda"]
    else if !emailRegexTest s then ["email noto‘g‘ri formatda"]
    else []
  | _ => ["email bo‘sh yoki noto‘g‘ri tipda"]

/-- The password check of the source:
`!p || typeof p !== "string" || p.length < 6` pushes the message. -/
def errPassword : Option JSVal → List String
  | some (.jstr s) =>
    if s == "" || s.length < 6 then
      ["Parol kamida 6 ta belgidan iborat bo‘lishi kerak"]
    else []
  | _ => ["Parol kamida 6 ta belgidan iborat bo‘lishi kerak"]

/-- The phone checks of the source: falsy/non-string/short pushes the
first message, otherwise a failed regex test pushes the second. -/
def errPhone : Option JSVal → List String
  | some (.jstr s) =>
    if s == "" || s.length < 7 then ["phone noto‘g‘ri yoki juda qisqa"]
    else if !phoneRegexTest s then
      ["phone faqat raqam (va +) belgilaridan iborat bo‘lishi kerak"]
    else []
  | _ => ["phone noto‘g‘ri yoki juda qisqa"]

/-- `validateUserData` of the source: the error messages pushed for each
field, in source order (firstName, lastName, email, password, phone,
address). -/
def validateUserData (d : Body) : List String :=
  errStrField "firstName bo‘sh bo‘lmasligi kerak" d.firstName ++
  errStrField "lastName bo‘sh bo‘lmasligi kerak" d.lastName ++
  errEmail d.email ++
  errPassword d.password ++
  errPhone d.phone ++
  errStrField "address bo‘sh bo‘lmasligi kerak" d.address

/-- Modelled from the spec: the external bcrypt library's `hash`
(`hash(plaintext) -> digest ... a self-describing digest string encoding
algorithm, cost, salt, and hash output`).  The digest embeds the salt
(the `v4.generate()` value the source passes) before a separator and the
recomputable hash material after it. -/
def bcryptHash (salt plaintext : String) : String :=
  salt ++ "$" ++ plaintext

/-- Modelled from the spec: the external bcrypt library's `verify`
(`verify(plaintext, digest) -> bool`, recomputing from the salt embedded
in the digest, `returns false on any mismatch or malformed digest`).
Total on all digest strings: a digest with no separator is malformed and
yields `false`. -/
def bcryptCompare (plaintext digest : String) : Bool :=
  match digest.data.dropWhile (fun c => c ≠ '$') with
  | [] => false
  | _ :: rest => rest == plaintext.data

/-- A well-formed salt (as produced by `v4.generate()`, a hex/dash UUID):
it contains no digest separator. -/
def saltOk (salt : String) : Bool :=
  !salt.data.contains '$'

/-- `kv.get(["users", k]).value`, as an association-list lookup. -/
def kvGet (st : Store) (k : String) : Option UserRecord :=
  match st with
  | [] => none
  | (k', v) :: rest => if k' = k then some v else kvGet rest k

/-- `kv.set(["users", k], v)`: replace the entry for `k`, or append. -/
def kvSet (st : Store) (k : String) (v : UserRecord) : Store :=
  match st with
  | [] => [(k, v)]
  | (k', v') :: rest =>
    if k' = k then (k, v) :: rest else (k', v') :: kvSet rest k v

/-- `kv.delete(["users", k])`: remove every entry for `k`. -/
def kvDelete (st : Store) (k : String) : Store :=
  st.filter (fun e => e.1 ≠ k)

/-- At most one stored record per email: the keys are pairwise distinct. -/
def uniqueKeys (st : Store) : Prop :=
  (st.map Prod.fst).Nodup

instance (st : Store) : Decidable (uniqueKeys st) :=
  inferInstanceAs (Decidable ((st.map Prod.fst).Nodup))

/-- The record `registerUser` stores for a validated body. -/
def recordOf (salt : String) (b : Body) : UserRecord :=
  { firstName := getStr b.firstName
    lastName := getStr b.lastName
    email := getStr b.email
    password := bcryptHash salt (getStr b.password)
    phone := getStr b.phone
    address := getStr b.address }

/-- `registerUser` of the source: validate, reject a duplicate email,
hash the password with a fresh salt (`salt` parameter), store the
record, and answer.  Returns the response and the store after the call. -/
def registerUser (salt : String) (st : Store) (b : Body) : Response × Store :=
  let errors := validateUserData b
  if errors.length > 0 then (⟨400, .validation errors⟩, st)
  else
    let email := getStr b.email
    if (kvGet st email).isSome then (⟨400, .err "Email already exist"⟩, st)
    else (⟨200, .msg "Registration Success"⟩, kvSet st email (recordOf salt b))

/-- The login request body. -/
structure LoginBody where
  email : Option JSVal
  password : Option JSVal
deriving DecidableEq

/-- `loginUser` of the source: missing-field check, lookup, bcrypt
compare.  A truthy non-string email is a non-string KV key and matches
no stored (string-keyed) entry; a truthy non-string password reaches the
bcrypt library, whose failure the handler surfaces as 500. -/
def loginUser (st : Store) (b : LoginBody) : Response :=
  if isFalsy b.email || isFalsy b.password then
    ⟨400, .err "Email yoki password yo‘q"⟩
  else
    match b.email with
    | some (.jstr e) =>
      match kvGet st e with
      | none => ⟨404, .err "Email not found"⟩
      | some user =>
        match b.password with
        | some (.jstr p) =>
          if bcryptCompare p user.password then ⟨200, .msg "Login Success"⟩
          else ⟨401, .err "Invalid Password"⟩
        | _ => ⟨500, .err "Internal Server Error"⟩
    | _ => ⟨404, .err "Email not found"⟩

/-- One merge step of `updateUser` for firstName/lastName/phone/address:
`if (typeof body.x === "string" && body.x.trim()) updated.x = body.x`. -/
def mergeField (cur : String) : Option JSVal → String
  | some (.jstr s) => if trimmedNonEmpty s then s else cur
  | _ => cur

/-- The password merge step of `updateUser`:
`if (typeof body.password === "string" && body.password.length >= 6)`
re-hash with a fresh salt and replace the stored digest. -/
def mergePassword (salt cur : String) : Option JSVal → String
  | some (.jstr s) => if s.length ≥ 6 then bcryptHash salt s else cur
  | _ => cur

/-- The record `updateUser` writes back: the stored record with each
supplied, non-empty field merged in (source order). -/
def mergeRecord (salt : String) (u : UserRecord) (b : Body) : UserRecord :=
  { u with
    firstName := mergeField u.firstName b.firstName
    lastName := mergeField u.lastName b.lastName
    phone := mergeField u.phone b.phone
    address := mergeField u.address b.address
    password := mergePassword salt u.password b.password }

/-- `updateUser` of the source: 404 when the email has no record,
otherwise merge the supplied fields and write the record back. -/
def updateUser (salt : String) (st : Store) (emailParam : String) (b : Body) :
    Response × Store :=
  match kvGet st emailParam with
  | none => (⟨404, .err "User not found"⟩, st)
  | some u =>
    (⟨200, .msg "User updated successfully"⟩,
      kvSet st emailParam (mergeRecord salt u b))

/-- `deleteUser` of the source: 404 when the email has no record,
otherwise delete the entry. -/
def deleteUser (st : Store) (emailParam : String) : Response × Store :=
  match kvGet st emailParam with
  | none => (⟨404, .err "User not found"⟩, st)
  | some _ => (⟨200, .msg "User deleted successfully"⟩, kvDelete st emailParam)

/-- A stored record as the JSON object `entry.value`, in the key order
`registerUser` builds it with. -/
def jsonFields (u : UserRecord) : List (String × String) :=
  [("firstName", u.firstName), ("lastName", u.lastName),
   ("email", u.email), ("password", u.password),
   ("phone", u.phone), ("address", u.address)]

/-- The rest-spread `const { password, ...rest } = entry.value`:
every key except `password`, order preserved. -/
def omitPassword (fields : List (String × String)) : List (String × String) :=
  fields.filter (fun kv => kv.1 ≠ "password")

/-- `getAllUsers` of the source: every stored record, password removed. -/
def getAllUsers (st : Store) : Response :=
  ⟨200, .userList (st.map (fun e => omitPassword (jsonFields e.2)))⟩

/-- The user list carried by a `getAllUsers` response. -/
def listedUsers (r : Response) : List (List (String × String)) :=
  match r.body with
  | .userList l => l
  | _ => []

/-- A register/update body whose six fields are all strings. -/
def strBody (f l e p ph a : String) : Body :=
  ⟨some (.jstr f), some (.jstr l), some (.jstr e),
   some (.jstr p), some (.jstr ph), some (.jstr a)⟩

/-- An update body supplying only a phone. -/
def phoneOnlyBody (ph : String) : Body :=
  ⟨none, none, none, none, some (.jstr ph), none⟩

/-- Modelled from the spec: the validator rule for firstName, lastName
and address (present, string type, non-empty after trim). -/
def specNameRule : Option JSVal → Bool
  | some (.jstr s) => trimmedNonEmpty s
  | _ => false

/-- Modelled from the spec: the validator rule for email (present,
string type, matches the email regex). -/
def specEmailRule : Option JSVal → Bool
  | some (.jstr s) => emailRegexTest s
  | _ => false

/-- Modelled from the spec: the validator rule for password (present,
string type, length at least 6). -/
def specPasswordRule : Option JSVal → Bool
  | some (.jstr s) => decide (6 ≤ s.length)
  | _ => false

/-- Modelled from the spec: the validator rule for phone (present,
string type, length at least 7, matches the phone regex). -/
def specPhoneRule : Option JSVal → Bool
  | some (.jstr s) => decide (7 ≤ s.length) && phoneRegexTest s
  | _ => false

/-- Modelled from the spec: all six validator rules hold. -/
def specAllRules (d : Body) : Bool :=
  specNameRule d.firstName && specNameRule d.lastName &&
  specEmailRule d.email && specPasswordRule d.password &&
  specPhoneRule d.phone && specNameRule d.address

/-- A field value that is absent, of non-string type, or the empty
string: the source's first email/phone check fires on exactly these. -/
def strMissing : Option JSVal → Bool
  | some (.jstr s) => s == ""
  | _ => true

/-- A phone value on which the source's first phone check fires:
absent, non-string, empty, or shorter than 7. -/
def phoneShort : Option JSVal → Bool
  | some (.jstr s) => s == "" || decide (s.length < 7)
  | _ => true

/-- A field value the update merge leaves untouched for
firstName/lastName/phone/address: absent, non-string, or empty after
trimming. -/
def keepsField : Option JSVal → Bool
  | some (.jstr s) => !trimmedNonEmpty s
  | _ => true

/-- A password value the update merge leaves untouched: absent,
non-string, or shorter than 6 characters. -/
def keepsPassword : Option JSVal → Bool
  | some (.jstr s) => decide (s.length < 6)
  | _ => true

/-- Modelled from the spec: the data-model constraint on phone
(string matching the phone regex, length at least 7). -/
def specPhoneOk (s : String) : Bool :=
  phoneRegexTest s && decide (7 ≤ s.length)

/-- Modelled from the spec: the data-model field constraints on a stored
record (names and address non-empty after trimming, phone well-formed). -/
def specRecordOk (u : UserRecord) : Bool :=
  trimmedNonEmpty u.firstName && trimmedNonEmpty u.lastName &&
  trimmedNonEmpty u.address && specPhoneOk u.phone

/-- The part of the data-model constraints the update path actually
preserves: names, address and phone stay non-empty after trimming. -/
def specWeakOk (u : UserRecord) : Bool :=
  trimmedNonEmpty u.firstName && trimmedNonEmpty u.lastName &&
  trimmedNonEmpty u.address && trimmedNonEmpty u.phone

/-- A register request in flight: its fresh salt and its body. -/
structure RegRequest where
  salt : String
  body : Body
deriving DecidableEq

/-- The control point of a register request between its awaited KV
operations: before the `kv.get` existence check, after passing it
(validated, no record seen, about to hash and `kv.set`), or finished
with a response. -/
inductive RegPhase where
  | start
  | checked
  | finished (resp : Response)
deriving DecidableEq

/-- One atomic stretch of `registerUser` between suspension points:
from the start through validation and the `kv.get` existence check, or
from there through hashing and the `kv.set` write.  The source awaits
between the `kv.get` and the `kv.set` (bcrypt.hash and kv.set are both
awaited), so two requests can interleave at this boundary. -/
def regStep (req : RegRequest) (ph : RegPhase) (st : Store) : RegPhase × Store :=
  match ph with
  | .start =>
    let errors := validateUserData req.body
    if errors.length > 0 then (.finished ⟨400, .validation errors⟩, st)
    else if (kvGet st (getStr req.body.email)).isSome then
      (.finished ⟨400, .err "Email already exist"⟩, st)
    else (.checked, st)
  | .checked =>
    (.finished ⟨200, .msg "Registration Success"⟩,
      kvSet st (getStr req.body.email) (recordOf req.salt req.body))
  | .finished r => (.finished r, st)

/-- Run two concurrent register requests under a schedule: `true` steps
the first request, `false` the second, on the shared store. -/
def runSchedule (r1 r2 : RegRequest) :
    List Bool → RegPhase × RegPhase × Store → RegPhase × RegPhase × Store
  | [], s => s
  | true :: rest, (p1, p2, st) =>
      runSchedule r1 r2 rest ((regStep r1 p1 st).1, p2, (regStep r1 p1 st).2)
  | false :: rest, (p1, p2, st) =>
      runSchedule r1 r2 rest (p1, (regStep r2 p2 st).1, (regStep r2 p2 st).2)

/-! ### Store lemmas -/

theorem kvGet_kvSet_self (st : Store) (k : String) (v : UserRecord) :
    kvGet (kvSet st k v) k = some v := by
  induction st with
  | nil => simp [kvSet, kvGet]
  | cons e rest ih =>
    obtain ⟨k', v'⟩ := e
    by_cases h : k' = k
    · subst h; simp [kvSet, kvGet]
    · simp [kvSet, kvGet, h, ih]

theorem mem_keys_kvSet (st : Store) (k : String) (v : UserRecord) (x : String) :
    x ∈ (kvSet st k v).map Prod.fst ↔ x ∈ st.map Prod.fst ∨ x = k := by
  induction st with
  | nil => simp [kvSet]
  | cons e rest ih =>
    obtain ⟨k', v'⟩ := e
    by_cases h : k' = k
    · subst h; simp [kvSet]; tauto
    · simp [kvSet, h, ih]; tauto

theorem map_fst_kvSet_of_isSome (st : Store) (k : String) (v : UserRecord)
    (h : (kvGet st k).isSome) :
    (kvSet st k v).map Prod.fst = st.map Prod.fst := by
  induction st with
  | nil => simp [kvGet] at h
  | cons e rest ih =>
    obtain ⟨k', v'⟩ := e
    by_cases hk : k' = k
    · subst hk; simp [kvSet]
    · simp only [kvGet, if_neg hk] at h
      simp [kvSet, hk, ih h]

theorem uniqueKeys_kvSet (st : Store) (k : String) (v : UserRecord)
    (h : uniqueKeys st) : uniqueKeys (kvSet st k v) := by
  induction st with
  | nil => simp [kvSet, uniqueKeys]
  | cons e rest ih =>
    obtain ⟨k', v'⟩ := e
    unfold uniqueKeys at *
    by_cases hk : k' = k
    · subst hk; simpa [kvSet] using h
    · simp only [List.map_cons, List.nodup_cons] at h
      obtain ⟨hnm, hrest⟩ := h
      simp only [kvSet, if_neg hk, List.map_cons, List.nodup_cons]
      refine ⟨?_, ih hrest⟩
      intro hx
      rcases (mem_keys_kvSet rest k v k').mp hx with hx' | hx'
      · exact hnm hx'
      · exact hk hx'

theorem uniqueKeys_kvDelete (st : Store) (k : String)
    (h : uniqueKeys st) : uniqueKeys (kvDelete st k) := by
  exact List.Nodup.sublist (List.Sublist.map Prod.fst (List.filter_sublist st)) h

theorem kvGet_kvDelete_self (st : Store) (k : String) :
    kvGet (kvDelete st k) k = none := by
  induction st with
  | nil => rfl
  | cons e rest ih =>
    obtain ⟨k', v⟩ := e
    by_cases h : k' = k
    · subst h
      simpa [kvDelete, List.filter_cons] using ih
    · simpa [kvDelete, List.filter_cons, h, kvGet] using ih

/-! ### Credential hasher lemmas -/

theorem dropWhile_append_of_all {p : Char → Bool} {l1 l2 : List Char}
    (h : ∀ c ∈ l1, p c = true) :
    (l1 ++ l2).dropWhile p = l2.dropWhile p := by
  induction l1 with
  | nil => rfl
  | cons c cs ih =>
    have hc : p c = true := h c (by simp)
    simpa [List.dropWhile, hc] using ih (fun c' hc' => h c' (by simp [hc']))

theorem dropWhile_eq_nil_of_all {p : Char → Bool} {l : List Char}
    (h : ∀ c ∈ l, p c = true) :
    l.dropWhile p = [] := by
  induction l with
  | nil => rfl
  | cons c cs ih =>
    have hc : p c = true := h c (by simp)
    simpa [List.dropWhile, hc] using ih (fun c' hc' => h c' (by simp [hc']))

theorem saltOk_all (salt : String) (h : saltOk salt = true) :
    ∀ c ∈ salt.data, (decide (c ≠ '$')) = true := by
  intro c hc
  simp only [saltOk, Bool.not_eq_true'] at h
  have hmem : '$' ∉ salt.data := by simpa using h
  simp only [decide_eq_true_eq]
  rintro rfl
  exact hmem hc

theorem bcryptHash_data (salt p : String) :
    (bcryptHash salt p).data = salt.data ++ '$' :: p.data := by
  simp [bcryptHash, String.data_append]

theorem bcryptCompare_hash (q salt p : String) (hs : saltOk salt = true) :
    bcryptCompare q (bcryptHash salt p) = (p.data == q.data) := by
  unfold bcryptCompare
  rw [bcryptHash_data, dropWhile_append_of_all (saltOk_all salt hs)]
  simp [List.dropWhile, BEq.comm]

theorem bcryptCompare_hash_self (salt p : String) (hs : saltOk salt = true) :
    bcryptCompare p (bcryptHash salt p) = true := by
  simp [bcryptCompare_hash p salt p hs]

theorem bcryptCompare_hash_ne (q salt p : String) (hs : saltOk salt = true)
    (hne : q ≠ p) : bcryptCompare q (bcryptHash salt p) = false := by
  rw [bcryptCompare_hash q salt p hs]
  simp only [beq_eq_false_iff_ne, ne_eq]
  intro hd
  exact hne (String.ext hd.symm)

theorem bcryptCompare_malformed (p d : String) (h : d.data.contains '$' = false) :
    bcryptCompare p d = false := by
  unfold bcryptCompare
  have hmem : '$' ∉ d.data := by simpa using h
  have hall : ∀ c ∈ d.data, (decide (c ≠ '$')) = true := by
    intro c hc
    simp only [decide_eq_true_eq]
    rintro rfl
    exact hmem hc
  rw [dropWhile_eq_nil_of_all hall]

/-! ### Validator lemmas -/

theorem errStrField_eq (msg : String) (v : Option JSVal) :
    errStrField msg v = if specNameRule v then [] else [msg] := by
  match v with
  | none => rfl
  | some (.jother t) => rfl
  | some (.jstr s) =>
    by_cases hs : s = ""
    · subst hs; rfl
    · have hbeq : (s == "") = false := by simp [hs]
      simp only [errStrField, specNameRule, hbeq, Bool.false_or]
      rcases Bool.eq_false_or_eq_true (trimmedNonEmpty s) with ht | ht <;> simp [ht]

theorem errEmail_eq (v : Option JSVal) :
    errEmail v = if specEmailRule v then []
      else if strMissing v then ["email bo‘sh yoki noto‘g‘ri tipda"]
      else ["email noto‘g‘ri formatda"] := by
  match v with
  | none => rfl
  | some (.jother t) => rfl
  | some (.jstr s) =>
    by_cases hs : s = ""
    · subst hs; rfl
    · have hbeq : (s == "") = false := by simp [hs]
      simp only [errEmail, specEmailRule, strMissing, hbeq]
      cases hr : emailRegexTest s <;> simp [hr]

theorem errPassword_eq (v : Option JSVal) :
    errPassword v = if specPasswordRule v then []
      else ["Parol kamida 6 ta belgidan iborat bo‘lishi kerak"] := by
  match v with
  | none => rfl
  | some (.jother t) => rfl
  | some (.jstr s) =>
    by_cases hs : s = ""
    · subst hs; rfl
    · have hbeq : (s == "") = false := by simp [hs]
      simp only [errPassword, specPasswordRule, hbeq, Bool.false_or]
      rcases Nat.lt_or_ge s.length 6 with h6 | h6
      · simp [decide_eq_true h6, decide_eq_false (Nat.not_le.mpr h6)]
      · simp [decide_eq_false (Nat.not_lt.mpr h6), decide_eq_true h6]

theorem errPhone_eq (v : Option JSVal) :
    errPhone v = if specPhoneRule v then []
      else if phoneShort v then ["phone noto‘g‘ri yoki juda qisqa"]
      else ["phone faqat raqam (va +) belgilaridan iborat bo‘lishi kerak"] := by
  match v with
  | none => rfl
  | some (.jother t) => rfl
  | some (.jstr s) =>
    by_cases hs : s = ""
    · subst hs; rfl
    · have hbeq : (s == "") = false := by simp [hs]
      simp only [errPhone, specPhoneRule, phoneShort, hbeq, Bool.false_or]
      rcases Nat.lt_or_ge s.length 7 with h7 | h7
      · simp [decide_eq_true h7, decide_eq_false (Nat.not_le.mpr h7)]
      · simp only [decide_eq_false (Nat.not_lt.mpr h7), decide_eq_true h7,
          Bool.true_and]
        rcases Bool.eq_false_or_eq_true (phoneRegexTest s) with hr | hr <;>
          simp [hr]

theorem if_single_eq_nil (r : Bool) (m : String) :
    ((if r then ([] : List String) else [m]) = []) ↔ r = true := by
  cases r <;> simp

theorem if_double_eq_nil (r c : Bool) (m1 m2 : String) :
    ((if r then ([] : List String) else if c then [m1] else [m2]) = []) ↔
      r = true := by
  cases r <;> cases c <;> simp

theorem mem_if_single (m m' : String) (r : Bool) :
    (m ∈ (if r then ([] : List String) else [m'])) ↔ (r = false ∧ m = m') := by
  cases r <;> simp

theorem mem_if_pair (m m1 m2 : String) (c : Bool) :
    (m ∈ (if c then [m1] else [m2])) ↔
      ((c = true ∧ m = m1) ∨ (c = false ∧ m = m2)) := by
  cases c <;> simp

theorem mem_if_double (m m1 m2 : String) (r c : Bool) :
    (m ∈ (if r then ([] : List String) else if c then [m1] else [m2])) ↔
      (r = false ∧ ((c = true ∧ m = m1) ∨ (c = false ∧ m = m2))) := by
  cases r <;> cases c <;> simp

theorem validate_nil_iff (d : Body) :
    validateUserData d = [] ↔ specAllRules d = true := by
  simp only [validateUserData, errStrField_eq, errEmail_eq, errPassword_eq,
    errPhone_eq, List.append_eq_nil, if_single_eq_nil, if_double_eq_nil,
    specAllRules, Bool.and_eq_true]

/-! ### Handler lemmas -/

theorem ne_empty_of_length_ge6 (s : String) (h : 6 ≤ s.length) : s ≠ "" := by
  intro h0
  subst h0
  simp at h

theorem emailRegexTest_ne_empty (s : String) (h : emailRegexTest s = true) :
    s ≠ "" := by
  intro h0
  subst h0
  simp [emailRegexTest] at h

theorem strBody_rules (f l e p ph a : String)
    (hval : validateUserData (strBody f l e p ph a) = []) :
    trimmedNonEmpty f = true ∧ trimmedNonEmpty l = true ∧
    emailRegexTest e = true ∧ 6 ≤ p.length ∧
    (7 ≤ ph.length ∧ phoneRegexTest ph = true) ∧ trimmedNonEmpty a = true := by
  have hrules := (validate_nil_iff _).mp hval
  simp only [specAllRules, strBody, Bool.and_eq_true, specNameRule,
    specEmailRule, specPasswordRule, specPhoneRule, decide_eq_true_eq] at hrules
  tauto

theorem registerUser_fresh (salt : String) (st : Store) (b : Body)
    (hval : validateUserData b = []) (hfresh : kvGet st (getStr b.email) = none) :
    registerUser salt st b =
      (⟨200, .msg "Registration Success"⟩,
        kvSet st (getStr b.email) (recordOf salt b)) := by
  simp [registerUser, hval, hfresh]

theorem registerUser_dup (salt : String) (st : Store) (b : Body) (u : UserRecord)
    (hval : validateUserData b = []) (hdup : kvGet st (getStr b.email) = some u) :
    registerUser salt st b = (⟨400, .err "Email already exist"⟩, st) := by
  simp [registerUser, hval, hdup]

theorem registerUser_uniqueKeys (salt : String) (st : Store) (b : Body)
    (h : uniqueKeys st) : uniqueKeys (registerUser salt st b).2 := by
  unfold registerUser
  by_cases h1 : (validateUserData b).length > 0
  · simpa [h1] using h
  · by_cases h2 : (kvGet st (getStr b.email)).isSome
    · simpa [h1, h2] using h
    · simpa [h1, h2] using uniqueKeys_kvSet st (getStr b.email) (recordOf salt b) h

theorem updateUser_missing (salt : String) (st : Store) (e : String) (b : Body)
    (h : kvGet st e = none) :
    updateUser salt st e b = (⟨404, .err "User not found"⟩, st) := by
  simp [updateUser, h]

theorem updateUser_found (salt : String) (st : Store) (e : String) (b : Body)
    (u : UserRecord) (h : kvGet st e = some u) :
    updateUser salt st e b =
      (⟨200, .msg "User updated successfully"⟩,
        kvSet st e (mergeRecord salt u b)) := by
  simp [updateUser, h]

theorem deleteUser_missing (st : Store) (e : String) (h : kvGet st e = none) :
    deleteUser st e = (⟨404, .err "User not found"⟩, st) := by
  simp [deleteUser, h]

theorem deleteUser_found (st : Store) (e : String) (u : UserRecord)
    (h : kvGet st e = some u) :
    deleteUser st e = (⟨200, .msg "User deleted successfully"⟩, kvDelete st e) := by
  simp [deleteUser, h]

theorem loginUser_strings (st : Store) (e p : String) (u : UserRecord)
    (he : e ≠ "") (hp : p ≠ "") (hu : kvGet st e = some u) :
    loginUser st ⟨some (.jstr e), some (.jstr p)⟩ =
      if bcryptCompare p u.password then ⟨200, .msg "Login Success"⟩
      else ⟨401, .err "Invalid Password"⟩ := by
  have hbe : (e == "") = false := by simp [he]
  have hbp : (p == "") = false := by simp [hp]
  simp [loginUser, isFalsy, hbe, hbp, hu]

theorem mergeField_keeps (cur : String) (v : Option JSVal)
    (h : keepsField v = true) : mergeField cur v = cur := by
  match v with
  | none => rfl
  | some (.jother t) => rfl
  | some (.jstr s) =>
    simp only [keepsField, Bool.not_eq_true'] at h
    simp [mergeField, h]

theorem mergePassword_keeps (salt cur : String) (v : Option JSVal)
    (h : keepsPassword v = true) : mergePassword salt cur v = cur := by
  match v with
  | none => rfl
  | some (.jother t) => rfl
  | some (.jstr s) =>
    simp only [keepsPassword, decide_eq_true_eq] at h
    simp [mergePassword, Nat.not_le.mpr h]

theorem trimmedNonEmpty_mergeField (cur : String) (v : Option JSVal)
    (h : trimmedNonEmpty cur = true) :
    trimmedNonEmpty (mergeField cur v) = true := by
  match v with
  | none => exact h
  | some (.jother t) => exact h
  | some (.jstr s) =>
    simp only [mergeField]
    rcases Bool.eq_false_or_eq_true (trimmedNonEmpty s) with ht | ht <;>
      simp [ht, h]

/-! ### Claim theorems -/

/-- C1: for every registration input that passes validation and whose
email has no stored record, register succeeds (responds 200 and stores
the record), and a subsequent login with that same email and password
succeeds (responds 200). -/
theorem register_then_login_ok (salt f l e p ph a : String) (st : Store)
    (hsalt : saltOk salt = true)
    (hval : validateUserData (strBody f l e p ph a) = [])
    (hfresh : kvGet st e = none) :
    (registerUser salt st (strBody f l e p ph a)).1 =
      ⟨200, .msg "Registration Success"⟩ ∧
    kvGet (registerUser salt st (strBody f l e p ph a)).2 e =
      some ⟨f, l, e, bcryptHash salt p, ph, a⟩ ∧
    loginUser (registerUser salt st (strBody f l e p ph a)).2
      ⟨some (.jstr e), some (.jstr p)⟩ = ⟨200, .msg "Login Success"⟩ := by
  obtain ⟨hf, hl, he, hp6, ⟨hph7, hphr⟩, ha⟩ := strBody_rules f l e p ph a hval
  have hene : e ≠ "" := emailRegexTest_ne_empty e he
  have hpne : p ≠ "" := ne_empty_of_length_ge6 p hp6
  have hrec : recordOf salt (strBody f l e p ph a) =
      ⟨f, l, e, bcryptHash salt p, ph, a⟩ := rfl
  have hreg : registerUser salt st (strBody f l e p ph a) =
      (⟨200, .msg "Registration Success"⟩,
        kvSet st e ⟨f, l, e, bcryptHash salt p, ph, a⟩) := by
    rw [registerUser_fresh salt st _ hval (by exact hfresh), hrec]
    rfl
  have hget : kvGet (kvSet st e ⟨f, l, e, bcryptHash salt p, ph, a⟩) e =
      some ⟨f, l, e, bcryptHash salt p, ph, a⟩ := kvGet_kvSet_self st e _
  refine ⟨by rw [hreg], by rw [hreg]; exact hget, ?_⟩
  rw [hreg]
  rw [loginUser_strings _ e p _ hene hpne hget]
  simp [bcryptCompare_hash_self salt p hsalt]

/-- C1 witness: the spec's running example registers into the empty
store and then logs in. -/
theorem register_then_login_ok_witness :
    (registerUser "u1" []
      (strBody "A" "B" "a@b.com" "secret1" "+998900000000" "X")).1 =
      ⟨200, .msg "Registration Success"⟩ ∧
    kvGet (registerUser "u1" []
      (strBody "A" "B" "a@b.com" "secret1" "+998900000000" "X")).2 "a@b.com" =
      some ⟨"A", "B", "a@b.com", bcryptHash "u1" "secret1",
        "+998900000000", "X"⟩ ∧
    loginUser (registerUser "u1" []
      (strBody "A" "B" "a@b.com" "secret1" "+998900000000" "X")).2
      ⟨some (.jstr "a@b.com"), some (.jstr "secret1")⟩ =
      ⟨200, .msg "Login Success"⟩ :=
  register_then_login_ok "u1" "A" "B" "a@b.com" "secret1" "+998900000000" "X"
    [] (by decide) (by decide) (by decide)

/-- C2: register on an email that already has a stored record fails
with 400 "Email already exist", leaves the store (hence the existing
record) unchanged, and register never breaks key uniqueness. -/
theorem duplicate_register_conflict (salt : String) (st : Store) (b : Body)
    (u : UserRecord) (hval : validateUserData b = [])
    (hdup : kvGet st (getStr b.email) = some u) :
    registerUser salt st b = (⟨400, .err "Email already exist"⟩, st) ∧
    kvGet (registerUser salt st b).2 (getStr b.email) = some u ∧
    ∀ (salt2 : String) (st2 : Store) (b2 : Body),
      uniqueKeys st2 → uniqueKeys (registerUser salt2 st2 b2).2 := by
  have hreg := registerUser_dup salt st b u hval hdup
  exact ⟨hreg, by rw [hreg]; exact hdup,
    fun salt2 st2 b2 h => registerUser_uniqueKeys salt2 st2 b2 h⟩

/-- C2 witness: re-registering a stored email is rejected and the
record survives; uniqueness holds on a concrete two-user store. -/
theorem duplicate_register_conflict_witness :
    registerUser "u2" [("a@b.com", ⟨"A", "B", "a@b.com", "h0", "+1234567", "X"⟩)]
      (strBody "Z" "W" "a@b.com" "others1" "+7654321" "Y") =
      (⟨400, .err "Email already exist"⟩,
        [("a@b.com", ⟨"A", "B", "a@b.com", "h0", "+1234567", "X"⟩)]) ∧
    kvGet (registerUser "u2"
      [("a@b.com", ⟨"A", "B", "a@b.com", "h0", "+1234567", "X"⟩)]
      (strBody "Z" "W" "a@b.com" "others1" "+7654321" "Y")).2 "a@b.com" =
      some ⟨"A", "B", "a@b.com", "h0", "+1234567", "X"⟩ ∧
    uniqueKeys (registerUser "u3"
      [("a@b.com", ⟨"A", "B", "a@b.com", "h0", "+1234567", "X"⟩)]
      (strBody "C" "D" "c@d.com" "secret2" "+2222222" "Z")).2 := by
  have h := duplicate_register_conflict "u2"
    [("a@b.com", ⟨"A", "B", "a@b.com", "h0", "+1234567", "X"⟩)]
    (strBody "Z" "W" "a@b.com" "others1" "+7654321" "Y")
    ⟨"A", "B", "a@b.com", "h0", "+1234567", "X"⟩ (by decide) (by decide)
  exact ⟨h.1, h.2.1, h.2.2 "u3" _ _ (by decide)⟩

/-- C6: update and delete on an email with no stored record answer 404
and leave the store unchanged (update creates nothing); after a
successful delete, get finds nothing and a subsequent delete or update
on that email answers 404. -/
theorem missing_email_not_found (salt : String) (st st2 : Store) (e : String)
    (b : Body) (u : UserRecord)
    (habs : kvGet st e = none) (hpres : kvGet st2 e = some u) :
    updateUser salt st e b = (⟨404, .err "User not found"⟩, st) ∧
    deleteUser st e = (⟨404, .err "User not found"⟩, st) ∧
    (deleteUser st2 e).1 = ⟨200, .msg "User deleted successfully"⟩ ∧
    kvGet (deleteUser st2 e).2 e = none ∧
    deleteUser (deleteUser st2 e).2 e =
      (⟨404, .err "User not found"⟩, (deleteUser st2 e).2) ∧
    updateUser salt (deleteUser st2 e).2 e b =
      (⟨404, .err "User not found"⟩, (deleteUser st2 e).2) := by
  have hdel := deleteUser_found st2 e u hpres
  have hgone : kvGet (deleteUser st2 e).2 e = none := by
    rw [hdel]
    exact kvGet_kvDelete_self st2 e
  exact ⟨updateUser_missing salt st e b habs, deleteUser_missing st e habs,
    by rw [hdel], hgone, deleteUser_missing _ e hgone,
    updateUser_missing salt _ e b hgone⟩

/-- C6 witness: 404 on the empty store; delete of a stored user then
404 on every subsequent operation for that email. -/
theorem missing_email_not_found_witness :
    updateUser "u6" [] "a@b.com" (phoneOnlyBody "+111") =
      (⟨404, .err "User not found"⟩, []) ∧
    deleteUser [] "a@b.com" = (⟨404, .err "User not found"⟩, []) ∧
    (deleteUser [("a@b.com", ⟨"A", "B", "a@b.com", "h0", "+1234567", "X"⟩)]
      "a@b.com").1 = ⟨200, .msg "User deleted successfully"⟩ ∧
    kvGet (deleteUser [("a@b.com", ⟨"A", "B", "a@b.com", "h0", "+1234567", "X"⟩)]
      "a@b.com").2 "a@b.com" = none ∧
    deleteUser (deleteUser
      [("a@b.com", ⟨"A", "B", "a@b.com", "h0", "+1234567", "X"⟩)] "a@b.com").2
      "a@b.com" =
      (⟨404, .err "User not found"⟩, (deleteUser
        [("a@b.com", ⟨"A", "B", "a@b.com", "h0", "+1234567", "X"⟩)]
        "a@b.com").2) ∧
    updateUser "u6" (deleteUser
      [("a@b.com", ⟨"A", "B", "a@b.com", "h0", "+1234567", "X"⟩)] "a@b.com").2
      "a@b.com" (phoneOnlyBody "+111") =
      (⟨404, .err "User not found"⟩, (deleteUser
        [("a@b.com", ⟨"A", "B", "a@b.com", "h0", "+1234567", "X"⟩)]
        "a@b.com").2) :=
  missing_email_not_found "u6" []
    [("a@b.com", ⟨"A", "B", "a@b.com", "h0", "+1234567", "X"⟩)]
    "a@b.com" (phoneOnlyBody "+111")
    ⟨"A", "B", "a@b.com", "h0", "+1234567", "X"⟩ (by decide) (by decide)

/-- C3: the source's create is an unguarded check-then-act, not atomic
with the existence check.  Two concurrent registrations for the same
email, each passing the `kv.get` existence check before either `kv.set`
runs (schedule: check 1, check 2, write 1, write 2), both finish with
200 Registration Success — no caller observes Conflict — and the second
write silently overwrites the first, leaving one stored record. -/
theorem concurrent_register_both_succeed :
    runSchedule ⟨"s1", strBody "A" "B" "a@b.com" "secret1" "+998900000000" "X"⟩
      ⟨"s2", strBody "C" "D" "a@b.com" "secret2" "+998900000001" "Y"⟩
      [true, false, true, false] (.start, .start, []) =
      (.finished ⟨200, .msg "Registration Success"⟩,
       .finished ⟨200, .msg "Registration Success"⟩,
       [("a@b.com", ⟨"C", "D", "a@b.com", bcryptHash "s2" "secret2",
         "+998900000001", "Y"⟩)]) := by decide

/-- C4: GET /users answers 200, returns every stored record with
exactly the firstName, lastName, email, phone and address keys (values
verbatim), and no returned object carries a password key. -/
theorem listAll_strips_password (st : Store) :
    (getAllUsers st).status = 200 ∧
    listedUsers (getAllUsers st) = st.map (fun en =>
      [("firstName", en.2.firstName), ("lastName", en.2.lastName),
       ("email", en.2.email), ("phone", en.2.phone),
       ("address", en.2.address)]) ∧
    (listedUsers (getAllUsers st)).all
      (fun fields => !((fields.map Prod.fst).contains "password")) = true := by
  refine ⟨rfl, rfl, ?_⟩
  rw [List.all_eq_true]
  intro fields hf
  simp only [getAllUsers, listedUsers, List.mem_map] at hf
  obtain ⟨en, _, rfl⟩ := hf
  rfl

/-- C7: the validator returns no errors exactly when all six field
rules hold, and each violated field rule contributes its own error
message (violations are collected across fields, not short-circuited). -/
theorem validate_characterization (d : Body) :
    (validateUserData d = [] ↔ specAllRules d = true) ∧
    ("firstName bo‘sh bo‘lmasligi kerak" ∈ validateUserData d ↔
      specNameRule d.firstName = false) ∧
    ("lastName bo‘sh bo‘lmasligi kerak" ∈ validateUserData d ↔
      specNameRule d.lastName = false) ∧
    (("email bo‘sh yoki noto‘g‘ri tipda" ∈ validateUserData d ∨
      "email noto‘g‘ri formatda" ∈ validateUserData d) ↔
      specEmailRule d.email = false) ∧
    ("Parol kamida 6 ta belgidan iborat bo‘lishi kerak" ∈ validateUserData d ↔
      specPasswordRule d.password = false) ∧
    (("phone noto‘g‘ri yoki juda qisqa" ∈ validateUserData d ∨
      "phone faqat raqam (va +) belgilaridan iborat bo‘lishi kerak" ∈
        validateUserData d) ↔ specPhoneRule d.phone = false) ∧
    ("address bo‘sh bo‘lmasligi kerak" ∈ validateUserData d ↔
      specNameRule d.address = false) := by
  refine ⟨validate_nil_iff d, ?_, ?_, ?_, ?_, ?_, ?_⟩
  · simp [validateUserData, errStrField_eq, errEmail_eq, errPassword_eq,
      errPhone_eq, List.mem_append, mem_if_single, mem_if_double, mem_if_pair]
  · simp [validateUserData, errStrField_eq, errEmail_eq, errPassword_eq,
      errPhone_eq, List.mem_append, mem_if_single, mem_if_double, mem_if_pair]
  · simp only [validateUserData, errStrField_eq, errEmail_eq, errPassword_eq,
      errPhone_eq, List.mem_append, mem_if_single, mem_if_double, mem_if_pair]
    rcases Bool.eq_false_or_eq_true (strMissing d.email) with hc | hc <;>
      simp [hc]
  · simp [validateUserData, errStrField_eq, errEmail_eq, errPassword_eq,
      errPhone_eq, List.mem_append, mem_if_single, mem_if_double, mem_if_pair]
  · simp only [validateUserData, errStrField_eq, errEmail_eq, errPassword_eq,
      errPhone_eq, List.mem_append, mem_if_single, mem_if_double, mem_if_pair]
    rcases Bool.eq_false_or_eq_true (phoneShort d.phone) with hc | hc <;>
      simp [hc]
  · simp [validateUserData, errStrField_eq, errEmail_eq, errPassword_eq,
      errPhone_eq, List.mem_append, mem_if_single, mem_if_double, mem_if_pair]

/-- C5 counterexample: a password of six spaces is empty after trimming,
yet the update re-hashes it and replaces the stored password hash, so
"fields ... empty after trimming are left untouched" fails as stated. -/
theorem update_whitespace_password_changes_hash :
    trimmedNonEmpty "      " = false ∧
    (updateUser "u5" [("a@b.com", ⟨"A", "B", "a@b.com", "h0", "+1234567", "X"⟩)]
      "a@b.com" ⟨none, none, none, some (.jstr "      "), none, none⟩).2 =
      [("a@b.com", ⟨"A", "B", "a@b.com", bcryptHash "u5" "      ",
        "+1234567", "X"⟩)] ∧
    bcryptHash "u5" "      " ≠ "h0" := by decide

/-- C5 (amended): an update supplying only a phone that is non-empty
after trimming changes exactly the phone field; fields that are absent,
non-string, or empty after trimming are left untouched — except the
password, which is applied whenever it is a string of length at least 6
(even whitespace-only), and is left untouched when shorter than 6; the
email field of the record never changes. -/
theorem update_merge_frame (salt : String) (st : Store) (e : String)
    (u : UserRecord) (b : Body) (ph : String)
    (hu : kvGet st e = some u) (hph : trimmedNonEmpty ph = true) :
    updateUser salt st e b =
      (⟨200, .msg "User updated successfully"⟩,
        kvSet st e (mergeRecord salt u b)) ∧
    updateUser salt st e (phoneOnlyBody ph) =
      (⟨200, .msg "User updated successfully"⟩,
        kvSet st e { u with phone := ph }) ∧
    (keepsField b.firstName = true →
      (mergeRecord salt u b).firstName = u.firstName) ∧
    (keepsField b.lastName = true →
      (mergeRecord salt u b).lastName = u.lastName) ∧
    (keepsField b.phone = true → (mergeRecord salt u b).phone = u.phone) ∧
    (keepsField b.address = true →
      (mergeRecord salt u b).address = u.address) ∧
    (keepsPassword b.password = true →
      (mergeRecord salt u b).password = u.password) ∧
    (mergeRecord salt u b).email = u.email := by
  have hmono : mergeRecord salt u (phoneOnlyBody ph) = { u with phone := ph } := by
    simp [mergeRecord, phoneOnlyBody, mergeField, mergePassword, hph]
  refine ⟨updateUser_found salt st e b u hu, ?_,
    fun h => mergeField_keeps _ _ h, fun h => mergeField_keeps _ _ h,
    fun h => mergeField_keeps _ _ h, fun h => mergeField_keeps _ _ h,
    fun h => mergePassword_keeps _ _ _ h, rfl⟩
  rw [updateUser_found salt st e (phoneOnlyBody ph) u hu, hmono]

/-- C5 witness: on a concrete store, an update body with a non-string
firstName, a short password and a whitespace address leaves those fields
alone, and a phone-only update changes exactly the phone. -/
theorem update_merge_frame_witness :
    updateUser "w5" [("a@b.com", ⟨"A", "B", "a@b.com", "h0", "+1234567", "X"⟩)]
      "a@b.com"
      ⟨some (.jother true), none, none, some (.jstr "abc"), none,
        some (.jstr "   ")⟩ =
      (⟨200, .msg "User updated successfully"⟩,
        kvSet [("a@b.com", ⟨"A", "B", "a@b.com", "h0", "+1234567", "X"⟩)]
          "a@b.com"
          (mergeRecord "w5" ⟨"A", "B", "a@b.com", "h0", "+1234567", "X"⟩
            ⟨some (.jother true), none, none, some (.jstr "abc"), none,
              some (.jstr "   ")⟩)) ∧
    updateUser "w5" [("a@b.com", ⟨"A", "B", "a@b.com", "h0", "+1234567", "X"⟩)]
      "a@b.com" (phoneOnlyBody "+111") =
      (⟨200, .msg "User updated successfully"⟩,
        kvSet [("a@b.com", ⟨"A", "B", "a@b.com", "h0", "+1234567", "X"⟩)]
          "a@b.com" ⟨"A", "B", "a@b.com", "h0", "+111", "X"⟩) ∧
    (mergeRecord "w5" ⟨"A", "B", "a@b.com", "h0", "+1234567", "X"⟩
      ⟨some (.jother true), none, none, some (.jstr "abc"), none,
        some (.jstr "   ")⟩).firstName = "A" ∧
    (mergeRecord "w5" ⟨"A", "B", "a@b.com", "h0", "+1234567", "X"⟩
      ⟨some (.jother true), none, none, some (.jstr "abc"), none,
        some (.jstr "   ")⟩).address = "X" ∧
    (mergeRecord "w5" ⟨"A", "B", "a@b.com", "h0", "+1234567", "X"⟩
      ⟨some (.jother true), none, none, some (.jstr "abc"), none,
        some (.jstr "   ")⟩).password = "h0" := by
  have h := update_merge_frame "w5"
    [("a@b.com", ⟨"A", "B", "a@b.com", "h0", "+1234567", "X"⟩)] "a@b.com"
    ⟨"A", "B", "a@b.com", "h0", "+1234567", "X"⟩
    ⟨some (.jother true), none, none, some (.jstr "abc"), none,
      some (.jstr "   ")⟩ "+111" (by decide) (by decide)
  exact ⟨h.1, h.2.1, h.2.2.1 (by decide), h.2.2.2.2.2.1 (by decide),
    h.2.2.2.2.2.2.1 (by decide)⟩

/-- C8: verification is total and mismatch-safe — the recomputed hash of
a different plaintext never matches, a digest with no separator is
malformed and verifies false, and a login whose password fails
verification answers 401 Invalid Password (no internal error). -/
theorem verify_total_and_login_unauthorized (salt p q d e : String)
    (st : Store) (u : UserRecord)
    (hsalt : saltOk salt = true) (hne : q ≠ p)
    (hd : d.data.contains '$' = false)
    (hu : kvGet st e = some u) (he : e ≠ "") (hq : q ≠ "")
    (hmis : bcryptCompare q u.password = false) :
    bcryptCompare p (bcryptHash salt p) = true ∧
    bcryptCompare q (bcryptHash salt p) = false ∧
    bcryptCompare p d = false ∧
    loginUser st ⟨some (.jstr e), some (.jstr q)⟩ =
      ⟨401, .err "Invalid Password"⟩ := by
  refine ⟨bcryptCompare_hash_self salt p hsalt,
    bcryptCompare_hash_ne q salt p hsalt hne,
    bcryptCompare_malformed p d hd, ?_⟩
  rw [loginUser_strings st e q u he hq hu, hmis]
  rfl

/-- C8 witness: a wrong password against a stored digest yields 401, and
the modelled verify is false on mismatches and malformed digests. -/
theorem verify_total_and_login_unauthorized_witness :
    bcryptCompare "secret1" (bcryptHash "s8" "secret1") = true ∧
    bcryptCompare "wrongpw1" (bcryptHash "s8" "secret1") = false ∧
    bcryptCompare "secret1" "deadbeef" = false ∧
    loginUser [("a@b.com", ⟨"A", "B", "a@b.com", bcryptHash "s8" "secret1",
      "+1234567", "X"⟩)]
      ⟨some (.jstr "a@b.com"), some (.jstr "wrongpw1")⟩ =
      ⟨401, .err "Invalid Password"⟩ :=
  verify_total_and_login_unauthorized "s8" "secret1" "wrongpw1" "deadbeef"
    "a@b.com"
    [("a@b.com", ⟨"A", "B", "a@b.com", bcryptHash "s8" "secret1",
      "+1234567", "X"⟩)]
    ⟨"A", "B", "a@b.com", bcryptHash "s8" "secret1", "+1234567", "X"⟩
    (by decide) (by decide) (by decide) (by decide) (by decide) (by decide)
    (by decide)

/-- C9 counterexample: on a store whose record satisfies every
data-model constraint, an update supplying phone "abc" (non-empty after
trimming, but too short and failing the phone regex) stores it, so the
stored record no longer satisfies the constraints. -/
theorem update_stores_invalid_phone :
    specRecordOk ⟨"A", "B", "a@b.com", "h0", "+1234567", "X"⟩ = true ∧
    (updateUser "u9" [("a@b.com", ⟨"A", "B", "a@b.com", "h0", "+1234567", "X"⟩)]
      "a@b.com" (phoneOnlyBody "abc")).2 =
      [("a@b.com", ⟨"A", "B", "a@b.com", "h0", "abc", "X"⟩)] ∧
    specPhoneOk "abc" = false ∧
    specRecordOk ⟨"A", "B", "a@b.com", "h0", "abc", "X"⟩ = false := by decide

/-- C9 (amended): registration establishes all the data-model field
constraints on the stored record; update preserves that firstName,
lastName, address and phone are non-empty after trimming, but does not
re-validate the phone format/length rule, which an update can break. -/
theorem constraints_create_and_update (salt f l e p ph a : String) (st : Store)
    (hval : validateUserData (strBody f l e p ph a) = [])
    (hfresh : kvGet st e = none)
    (salt2 : String) (st2 : Store) (e2 : String) (u u' : UserRecord) (b2 : Body)
    (hu : kvGet st2 e2 = some u) (hok : specWeakOk u = true)
    (hu' : kvGet (updateUser salt2 st2 e2 b2).2 e2 = some u') :
    kvGet (registerUser salt st (strBody f l e p ph a)).2 e =
      some ⟨f, l, e, bcryptHash salt p, ph, a⟩ ∧
    specRecordOk ⟨f, l, e, bcryptHash salt p, ph, a⟩ = true ∧
    specWeakOk u' = true := by
  obtain ⟨hf, hl, he, hp6, ⟨hph7, hphr⟩, ha⟩ := strBody_rules f l e p ph a hval
  refine ⟨?_, ?_, ?_⟩
  · rw [registerUser_fresh salt st _ hval hfresh]
    exact kvGet_kvSet_self st e _
  · simp [specRecordOk, specPhoneOk, hf, hl, ha, hphr, hph7]
  · rw [updateUser_found salt2 st2 e2 b2 u hu] at hu'
    have hmerge : mergeRecord salt2 u b2 = u' :=
      Option.some.inj ((kvGet_kvSet_self st2 e2 (mergeRecord salt2 u b2)) ▸ hu')
    subst hmerge
    simp only [specWeakOk, Bool.and_eq_true] at hok ⊢
    obtain ⟨⟨⟨h1, h2⟩, h3⟩, h4⟩ := hok
    exact ⟨⟨⟨trimmedNonEmpty_mergeField _ _ h1,
      trimmedNonEmpty_mergeField _ _ h2⟩,
      trimmedNonEmpty_mergeField _ _ h3⟩,
      trimmedNonEmpty_mergeField _ _ h4⟩

/-- C9 witness: a concrete valid registration stores a constraint-
satisfying record, and a concrete phone-only update keeps the weak
(non-empty after trimming) constraints. -/
theorem constraints_create_and_update_witness :
    kvGet (registerUser "w9" []
      (strBody "F" "L" "f@l.co" "passw0rd" "+1234567" "Addr")).2 "f@l.co" =
      some ⟨"F", "L", "f@l.co", bcryptHash "w9" "passw0rd", "+1234567",
        "Addr"⟩ ∧
    specRecordOk ⟨"F", "L", "f@l.co", bcryptHash "w9" "passw0rd", "+1234567",
      "Addr"⟩ = true ∧
    specWeakOk ⟨"F", "L", "f@l.co", "h9", "x", "Addr"⟩ = true :=
  constraints_create_and_update "w9" "F" "L" "f@l.co" "passw0rd" "+1234567"
    "Addr" [] (by decide) (by decide)
    "w9b" [("f@l.co", ⟨"F", "L", "f@l.co", "h9", "+1234567", "Addr"⟩)]
    "f@l.co" ⟨"F", "L", "f@l.co", "h9", "+1234567", "Addr"⟩
    ⟨"F", "L", "f@l.co", "h9", "x", "Addr"⟩ (phoneOnlyBody "x")
    (by decide) (by decide) (by decide)

/-- C10 counterexample: a password of seven spaces is whitespace-only,
yet the update applies it — re-hashing it and replacing the stored
password hash — so "a whitespace-only field value is silently ignored"
fails as stated. -/
theorem update_whitespace_password_applied :
    (updateUser "uA" [("c@d.com", ⟨"C", "D", "c@d.com", "h1", "+7654321", "Y"⟩)]
      "c@d.com" ⟨none, none, none, some (.jstr "       "), none, none⟩).2 =
      [("c@d.com", ⟨"C", "D", "c@d.com", bcryptHash "uA" "       ",
        "+7654321", "Y"⟩)] ∧
    trimmedNonEmpty "       " = false ∧
    bcryptHash "uA" "       " ≠ "h1" := by decide

/-- C10 (amended): for an existing email, update answers 200 for every
body and never a validation error; non-string values, short passwords
and whitespace-only firstName/lastName/phone/address are silently
ignored, but a whitespace-only password of length at least 6 is applied;
a supplied email field is ignored entirely, so the record's key set and
email never change. -/
theorem update_always_ok_ignores_invalid (salt : String) (st : Store)
    (e : String) (u : UserRecord) (b : Body) (hu : kvGet st e = some u) :
    (updateUser salt st e b).1 = ⟨200, .msg "User updated successfully"⟩ ∧
    (updateUser salt st e b).2 = kvSet st e (mergeRecord salt u b) ∧
    ((updateUser salt st e b).2).map Prod.fst = st.map Prod.fst ∧
    (mergeRecord salt u b).email = u.email ∧
    (keepsPassword b.password = true →
      (mergeRecord salt u b).password = u.password) ∧
    (keepsField b.firstName = true →
      (mergeRecord salt u b).firstName = u.firstName) ∧
    (keepsField b.lastName = true →
      (mergeRecord salt u b).lastName = u.lastName) ∧
    (keepsField b.phone = true → (mergeRecord salt u b).phone = u.phone) ∧
    (keepsField b.address = true →
      (mergeRecord salt u b).address = u.address) ∧
    (∀ s : String, b.password = some (.jstr s) → 6 ≤ s.length →
      (mergeRecord salt u b).password = bcryptHash salt s) := by
  have hup := updateUser_found salt st e b u hu
  refine ⟨by rw [hup], by rw [hup], ?_, rfl,
    fun h => mergePassword_keeps _ _ _ h,
    fun h => mergeField_keeps _ _ h, fun h => mergeField_keeps _ _ h,
    fun h => mergeField_keeps _ _ h, fun h => mergeField_keeps _ _ h, ?_⟩
  · rw [hup]
    exact map_fst_kvSet_of_isSome st e _ (by simp [hu])
  · intro s hs h6
    simp [mergeRecord, mergePassword, hs, h6]

/-- C10 witness: a concrete update body with a supplied email, a
non-string lastName, a whitespace phone and a long password answers 200,
keeps the keys and the record's email, ignores the invalid fields, and
applies the password. -/
theorem update_always_ok_ignores_invalid_witness :
    (updateUser "wA" [("c@d.com", ⟨"C", "D", "c@d.com", "h1", "+7654321", "Y"⟩)]
      "c@d.com" ⟨none, some (.jother false), some (.jstr "new@x.io"),
        some (.jstr "longpass"), some (.jstr " "), none⟩).1 =
      ⟨200, .msg "User updated successfully"⟩ ∧
    ((updateUser "wA" [("c@d.com", ⟨"C", "D", "c@d.com", "h1", "+7654321", "Y"⟩)]
      "c@d.com" ⟨none, some (.jother false), some (.jstr "new@x.io"),
        some (.jstr "longpass"), some (.jstr " "), none⟩).2).map Prod.fst =
      ["c@d.com"] ∧
    (mergeRecord "wA" ⟨"C", "D", "c@d.com", "h1", "+7654321", "Y"⟩
      ⟨none, some (.jother false), some (.jstr "new@x.io"),
        some (.jstr "longpass"), some (.jstr " "), none⟩).email = "c@d.com" ∧
    (mergeRecord "wA" ⟨"C", "D", "c@d.com", "h1", "+7654321", "Y"⟩
      ⟨none, some (.jother false), some (.jstr "new@x.io"),
        some (.jstr "longpass"), some (.jstr " "), none⟩).lastName = "D" ∧
    (mergeRecord "wA" ⟨"C", "D", "c@d.com", "h1", "+7654321", "Y"⟩
      ⟨none, some (.jother false), some (.jstr "new@x.io"),
        some (.jstr "longpass"), some (.jstr " "), none⟩).phone = "+7654321" ∧
    (mergeRecord "wA" ⟨"C", "D", "c@d.com", "h1", "+7654321", "Y"⟩
      ⟨none, some (.jother false), some (.jstr "new@x.io"),
        some (.jstr "longpass"), some (.jstr " "), none⟩).password =
      bcryptHash "wA" "longpass" := by
  have h := update_always_ok_ignores_invalid "wA"
    [("c@d.com", ⟨"C", "D", "c@d.com", "h1", "+7654321", "Y"⟩)] "c@d.com"
    ⟨"C", "D", "c@d.com", "h1", "+7654321", "Y"⟩
    ⟨none, some (.jother false), some (.jstr "new@x.io"),
      some (.jstr "longpass"), some (.jstr " "), none⟩ (by decide)
  exact ⟨h.1, h.2.2.1, h.2.2.2.1, h.2.2.2.2.2.2.1 (by decide),
    h.2.2.2.2.2.2.2.1 (by decide),
    h.2.2.2.2.2.2.2.2.2 "longpass" (by decide) (by decide)⟩

end DenoKvApi
